import Mathlib

/-!
Verification development for the Tool Invocation & Resilience Layer of the
Nova-Long-Horizon-Agentic-Ai repository (src/tools.py and src/utils/retry.py).

Modelling conventions:
* Python values that can appear as tool-call arguments are modelled by `Py`.
  Mappings are modelled with string keys (the only kind produced by JSON
  objects); insertion-ordered Python dicts are modelled as association lists
  with `dictSet` / `dictGet` mirroring `d[k] = v` / `d.get(k)`.
* A raised Python exception is modelled by `PyExc`; its `isException` field
  records whether the exception class derives from `Exception` (as opposed to
  only `BaseException`, e.g. `SystemExit`), which is what an
  `except Exception:` clause tests.
* Fallible Python code is modelled in `Except PyExc`: `Except.ok` is a normal
  return, `Except.error` a raised exception.
* Floating point delays are modelled with exact rationals; `random.random()`
  draws are an oracle `rs : Nat -> Rat` indexed by the attempt number, with
  range hypotheses `0 <= rs k < 1` where the claim needs them.
* Logging calls are side effects with no observable data flow and are elided.
-/

/-- Model of the Python values relevant to tool dispatch (the results of
`json.loads` and the contents of argument mappings). Dict keys are strings,
as produced by JSON objects. -/
inductive Py where
  | str : String → Py
  | num : ℚ → Py
  | bool : Bool → Py
  | none : Py
  | list : List Py → Py
  | dict : List (String × Py) → Py
  deriving Repr

/-- A raised Python exception: class name, `str(e)` message, and whether the
class derives from `Exception` (an `except Exception:` clause catches it iff
this flag is true; e.g. `SystemExit` and `KeyboardInterrupt` derive only from
`BaseException` and have it false). -/
structure PyExc where
  kind : String
  msg : String
  isException : Bool
  deriving DecidableEq, Repr

/-- Python dict assignment `d[k] = v` on an insertion-ordered association
list: an existing key keeps its position and gets the new value, a new key is
appended. -/
def dictSet {β : Type} (d : List (String × β)) (k : String) (v : β) : List (String × β) :=
  match d with
  | [] => [(k, v)]
  | (k', v') :: rest => if k' = k then (k, v) :: rest else (k', v') :: dictSet rest k v

/-- Python dict lookup `d.get(k)` on an association list. -/
def dictGet {β : Type} (d : List (String × β)) (k : String) : Option β :=
  match d with
  | [] => Option.none
  | (k', v) :: rest => if k' = k then Option.some v else dictGet rest k

theorem dictGet_dictSet {β : Type} (d : List (String × β)) (k : String) (v : β) :
    dictGet (dictSet d k v) k = Option.some v := by
  induction d with
  | nil => simp [dictSet, dictGet]
  | cons hd tl ih =>
    obtain ⟨k', v'⟩ := hd
    by_cases h : k' = k
    · simp [dictSet, dictGet, h]
    · simp [dictSet, dictGet, h, ih]

/-! ## Retry wrapper (src/utils/retry.py, `retry(...)`, `sync_wrapper`) -/

/-- The configuration parameters of the `retry` decorator
(src/utils/retry.py lines 23-31). `exceptions` models the
`except exceptions as e:` clause: the predicate holds of exactly the raised
exceptions whose class is an instance of one of the configured classes. The
default `(Exception,)` catches precisely the `Exception`-derived failures.
`max_attempts` is a Python int, so it may be non-positive. The `on_retry`
callback only observes (it returns `None`); it is elided from the model. -/
structure RetryPolicy where
  max_attempts : Int := 3
  base_delay : ℚ := 1
  max_delay : ℚ := 60
  exponential_base : ℚ := 2
  jitter : Bool := true
  exceptions : PyExc → Bool := fun e => e.isException

/-- The observable outcome of running the wrapped callable: the returned value
(`Except.ok (Option.some a)` a normal return, `Except.ok Option.none` Python's
implicit `return None`, `Except.error e` a raised exception), the number of
times the target was invoked, and the list of delays slept between attempts,
in order. -/
structure RunResult (α : Type) where
  result : Except PyExc (Option α)
  calls : Nat
  delays : List ℚ
  deriving Repr

/-- The body of `sync_wrapper` (src/utils/retry.py lines 98-135): the
`for attempt in range(1, max_attempts + 1)` loop, with `fuel` the number of
iterations remaining in the range, `attempt` the current 1-based attempt
number, and `lastE` the `last_exception` variable. The target's behaviour on
the k-th invocation is `f k` (the wrapper passes the same arguments each
time, so only the attempt index varies). `rs k` is the `random.random()`
draw used for jitter after attempt `k`. When the range is exhausted the
function falls through to `if last_exception: raise last_exception` and
otherwise returns `None`. -/
def syncLoop (p : RetryPolicy) (f : Nat → Except PyExc α) (rs : Nat → ℚ) :
    Nat → Nat → Option PyExc → RunResult α
  | 0, _, lastE =>
    { result := match lastE with
                | Option.some e => Except.error e
                | Option.none => Except.ok Option.none
      calls := 0
      delays := [] }
  | fuel + 1, attempt, _ =>
    match f attempt with
    | Except.ok a => { result := Except.ok (Option.some a), calls := 1, delays := [] }
    | Except.error e =>
      if p.exceptions e then
        if (attempt : Int) = p.max_attempts then
          { result := Except.error e, calls := 1, delays := [] }
        else
          let delay := min (p.base_delay * p.exponential_base ^ (attempt - 1)) p.max_delay
          let d := if p.jitter then delay * (1/2 + rs attempt) else delay
          let r := syncLoop p f rs fuel (attempt + 1) (Option.some e)
          { result := r.result, calls := r.calls + 1, delays := d :: r.delays }
      else
        { result := Except.error e, calls := 1, delays := [] }

/-- Invoking the blocking wrapper produced by `retry(...)` on a target: the
range `range(1, max_attempts + 1)` has `max(0, max_attempts)` iterations and
`attempt` starts at 1, with `last_exception` initially `None`. -/
def sync_wrapper (p : RetryPolicy) (f : Nat → Except PyExc α) (rs : Nat → ℚ) : RunResult α :=
  syncLoop p f rs p.max_attempts.toNat 1 Option.none

/-! ## Tool registry (src/tools.py, `ToolParameter`, `Tool`, `ToolRegistry`) -/

/-- Definition of a tool parameter (src/tools.py lines 33-40). -/
structure ToolParameter where
  name : String
  type : String
  description : String
  required : Bool := true
  default : Option Py := Option.none

/-- The entry of a JSON-schema `properties` mapping: `{type, description}`. -/
structure ParamSchema where
  type : String
  description : String
  deriving DecidableEq, Repr

/-- The value produced by `Tool.to_json_schema`
(`{type: "object", properties: ..., required: [...]}`); `properties` is an
insertion-ordered Python dict. -/
structure JsonSchema where
  type : String
  properties : List (String × ParamSchema)
  required : List String
  deriving DecidableEq, Repr

/-- A registered tool (src/tools.py lines 43-49): name, description,
implementation callable, parameter list. The implementation takes the keyword
arguments it is invoked with and either returns a string or raises. -/
structure Tool where
  name : String
  description : String
  function : List (String × Py) → Except PyExc String
  parameters : List ToolParameter := []

/-- One iteration of the loop in `to_json_schema` (src/tools.py lines 56-62):
`properties[param.name] = {type, description}` and, when the parameter is
required, `required.append(param.name)`. -/
def schemaStep (acc : List (String × ParamSchema) × List String) (param : ToolParameter) :
    List (String × ParamSchema) × List String :=
  (dictSet acc.1 param.name { type := param.type, description := param.description },
   if param.required then acc.2 ++ [param.name] else acc.2)

/-- Model of `Tool.to_json_schema` (src/tools.py lines 51-68). -/
def Tool.to_json_schema (t : Tool) : JsonSchema :=
  let acc := t.parameters.foldl schemaStep ([], [])
  { type := "object", properties := acc.1, required := acc.2 }

/-- Model of `Tool.execute` (src/tools.py lines 70-72): `self.function(**kwargs)`. -/
def Tool.execute (t : Tool) (kwargs : List (String × Py)) : Except PyExc String :=
  t.function kwargs

/-- The registry state: the `_tools` dict mapping names to tools. The
process-wide singleton discipline (`__new__`) is elided: every operation is
modelled on an explicit registry value. -/
structure ToolRegistry where
  _tools : List (String × Tool) := []

/-- Model of `ToolRegistry.register` (src/tools.py lines 93-122): builds a `Tool` from
the decorator arguments and the decorated function and stores it with
`self._tools[name] = tool`, overwriting any prior entry for `name`. -/
def ToolRegistry.register (reg : ToolRegistry) (name description : String)
    (parameters : List ToolParameter) (func : List (String × Py) → Except PyExc String) :
    ToolRegistry :=
  { _tools := dictSet reg._tools name
      { name := name, description := description, function := func, parameters := parameters } }

/-- Model of `ToolRegistry.get` (src/tools.py lines 124-126): `self._tools.get(name)`. -/
def ToolRegistry.get (reg : ToolRegistry) (name : String) : Option Tool :=
  dictGet reg._tools name

/-- Model of `ToolRegistry.execute` (src/tools.py lines 128-142): resolves the tool; on
a missing name returns the not-found error string; otherwise invokes the tool
under `try ... except Exception as e:`, turning an `Exception`-derived failure
into the error string. A failure whose class does not derive from `Exception`
(e.g. `SystemExit`) is not matched by the clause and propagates. -/
def ToolRegistry.execute (reg : ToolRegistry) (name : String)
    (kwargs : List (String × Py)) : Except PyExc String :=
  match reg.get name with
  | Option.none => Except.ok ("Error: Tool '" ++ name ++ "' not found.")
  | Option.some tool =>
    match tool.execute kwargs with
    | Except.ok result => Except.ok result
    | Except.error e =>
      if e.isException then Except.ok ("Error executing '" ++ name ++ "': " ++ e.msg)
      else Except.error e

/-- The empty registry (the state after `clear()`). -/
def emptyRegistry : ToolRegistry := { _tools := [] }

/-! ## JSON deserialization (model of the `json.loads` call in
`execute_tool_call`). The parser follows the JSON grammar accepted by
Python's `json` module: objects, arrays, strings with escapes, numbers
without leading zeros, `true`/`false`/`null`, and the non-finite constants
(whose numeric value is irrelevant here and modelled as 0). -/

def openBrace : Char := Char.ofNat 123

def closeBrace : Char := Char.ofNat 125

def isWsChar (c : Char) : Bool := c = ' ' || c = '\t' || c = '\n' || c = '\r'

def skipWs : List Char → List Char
  | [] => []
  | c :: cs => if isWsChar c then skipWs cs else c :: cs

def takeDigits : List Char → List Char × List Char
  | [] => ([], [])
  | c :: cs =>
    if c.isDigit then
      let p := takeDigits cs
      (c :: p.1, p.2)
    else ([], c :: cs)

def digitsToNat (ds : List Char) : Nat := ds.foldl (fun n c => n * 10 + (c.toNat - 48)) 0

def escChar (c : Char) : Option Char :=
  if c = '"' then some '"'
  else if c = '\\' then some '\\'
  else if c = '/' then some '/'
  else if c = 'b' then some (Char.ofNat 8)
  else if c = 'f' then some (Char.ofNat 12)
  else if c = 'n' then some '\n'
  else if c = 'r' then some '\r'
  else if c = 't' then some '\t'
  else none

def hexVal (c : Char) : Option Nat :=
  if c.isDigit then some (c.toNat - 48)
  else if 'a' ≤ c ∧ c ≤ 'f' then some (c.toNat - 87)
  else if 'A' ≤ c ∧ c ≤ 'F' then some (c.toNat - 55)
  else none

/-- Integer part of a JSON number: `0`, or a nonzero digit followed by
digits (leading zeros are rejected, as in Python's `json`). -/
def parseIntPart : List Char → Option (Nat × List Char)
  | [] => none
  | c :: cs =>
    if c = '0' then
      match cs with
      | d :: _ => if d.isDigit then none else some (0, cs)
      | [] => some (0, [])
    else if c.isDigit then
      let p := takeDigits (c :: cs)
      some (digitsToNat p.1, p.2)
    else none

/-- Optional fraction part of a JSON number (0 when absent). -/
def parseFracPart : List Char → Option (ℚ × List Char)
  | '.' :: cs =>
    let p := takeDigits cs
    if p.1.isEmpty then none
    else some ((digitsToNat p.1 : ℚ) / (10 : ℚ) ^ p.1.length, p.2)
  | cs => some (0, cs)

/-- Optional exponent part of a JSON number (0 when absent). -/
def parseExpPart : List Char → Option (Int × List Char)
  | [] => some (0, [])
  | c :: cs =>
    if c = 'e' ∨ c = 'E' then
      let sc : Int × List Char :=
        match cs with
        | '+' :: r => (1, r)
        | '-' :: r => (-1, r)
        | r => (1, r)
      let p := takeDigits sc.2
      if p.1.isEmpty then none else some (sc.1 * (digitsToNat p.1 : Int), p.2)
    else some (0, c :: cs)

/-- A JSON number, with optional sign, fraction and exponent; also accepts
the `Infinity` constant that Python's `json` allows. -/
def parseNumber (cs : List Char) : Option (ℚ × List Char) :=
  let sc : Bool × List Char :=
    match cs with
    | '-' :: r => (true, r)
    | r => (false, r)
  match parseIntPart sc.2 with
  | none =>
    match sc.2 with
    | 'I' :: 'n' :: 'f' :: 'i' :: 'n' :: 'i' :: 't' :: 'y' :: r => some (0, r)
    | _ => none
  | some (ip, cs1) =>
    match parseFracPart cs1 with
    | none => none
    | some (fp, cs2) =>
      match parseExpPart cs2 with
      | none => none
      | some (ex, cs3) =>
        let mag : ℚ := ((ip : ℚ) + fp) * (10 : ℚ) ^ ex
        some (if sc.1 then -mag else mag, cs3)

/-- The body of a JSON string after the opening quote: the decoded characters
and the remainder after the closing quote. -/
def pStr : Nat → List Char → Option (List Char × List Char)
  | 0, _ => none
  | _ + 1, [] => none
  | fuel + 1, c :: cs =>
    if c = '"' then some ([], cs)
    else if c = '\\' then
      match cs with
      | [] => none
      | e :: cs2 =>
        if e = 'u' then
          match cs2 with
          | a :: b :: c3 :: d :: cs3 =>
            match hexVal a, hexVal b, hexVal c3, hexVal d with
            | some ha, some hb, some hc, some hd =>
              match pStr fuel cs3 with
              | some (out, rest) =>
                some (Char.ofNat (((ha * 16 + hb) * 16 + hc) * 16 + hd) :: out, rest)
              | none => none
            | _, _, _, _ => none
          | _ => none
        else
          match escChar e with
          | some ch =>
            match pStr fuel cs2 with
            | some (out, rest) => some (ch :: out, rest)
            | none => none
          | none => none
    else
      match pStr fuel cs with
      | some (out, rest) => some (c :: out, rest)
      | none => none

mutual

/-- One JSON value, after skipping leading whitespace. `fuel` bounds the
recursion depth; the top-level call supplies more fuel than the input length,
and every recursive call consumes at least one input character, so fuel never
runs out on an input the grammar accepts. -/
def pValue : Nat → List Char → Option (Py × List Char)
  | 0, _ => none
  | fuel + 1, cs =>
    match skipWs cs with
    | [] => none
    | c :: r =>
      if c = '"' then
        match pStr fuel r with
        | some (out, rest) => some (Py.str (String.mk out), rest)
        | none => none
      else if c = '[' then
        match skipWs r with
        | ']' :: rest => some (Py.list [], rest)
        | r2 =>
          match pElems fuel r2 with
          | some (vs, rest) => some (Py.list vs, rest)
          | none => none
      else if c = openBrace then
        match skipWs r with
        | [] => none
        | c2 :: rest =>
          if c2 = closeBrace then some (Py.dict [], rest)
          else
            match pMembers fuel (c2 :: rest) with
            | some (prs, rest2) =>
              some (Py.dict (prs.foldl (fun d kv => dictSet d kv.1 kv.2) []), rest2)
            | none => none
      else if c = 't' then
        match r with
        | 'r' :: 'u' :: 'e' :: rest => some (Py.bool true, rest)
        | _ => none
      else if c = 'f' then
        match r with
        | 'a' :: 'l' :: 's' :: 'e' :: rest => some (Py.bool false, rest)
        | _ => none
      else if c = 'n' then
        match r with
        | 'u' :: 'l' :: 'l' :: rest => some (Py.none, rest)
        | _ => none
      else if c = 'N' then
        match r with
        | 'a' :: 'N' :: rest => some (Py.num 0, rest)
        | _ => none
      else
        match parseNumber (c :: r) with
        | some (q, rest) => some (Py.num q, rest)
        | none => none

/-- The comma-separated elements of a nonempty JSON array, up to and
including the closing bracket. -/
def pElems : Nat → List Char → Option (List Py × List Char)
  | 0, _ => none
  | fuel + 1, cs =>
    match pValue fuel cs with
    | some (v, r1) =>
      match skipWs r1 with
      | ',' :: r2 =>
        match pElems fuel r2 with
        | some (vs, r3) => some (v :: vs, r3)
        | none => none
      | ']' :: r2 => some ([v], r2)
      | _ => none
    | none => none

/-- The comma-separated members of a nonempty JSON object, up to and
including the closing brace, as key/value pairs in source order. -/
def pMembers : Nat → List Char → Option (List (String × Py) × List Char)
  | 0, _ => none
  | fuel + 1, cs =>
    match skipWs cs with
    | '"' :: r =>
      match pStr fuel r with
      | some (kcs, r1) =>
        match skipWs r1 with
        | ':' :: r2 =>
          match pValue fuel r2 with
          | some (v, r3) =>
            match skipWs r3 with
            | ',' :: r4 =>
              match pMembers fuel r4 with
              | some (ms, r5) => some ((String.mk kcs, v) :: ms, r5)
              | none => none
            | c :: r4 => if c = closeBrace then some ([(String.mk kcs, v)], r4) else none
            | [] => none
          | none => none
        | _ => none
      | none => none
    | _ => none

end

/-- Model of `json.loads` on a string: parse one JSON value and require that
only whitespace remains. A failure models `json.JSONDecodeError`. -/
def json_loads (s : String) : Except Unit Py :=
  match pValue (s.length + 1) s.data with
  | some (v, rest) => if (skipWs rest).isEmpty then Except.ok v else Except.error ()
  | none => Except.error ()

/-! ## Dispatch entry point (src/tools.py, `execute_tool_call`) -/

/-- The keyword-argument unpacking that the call
`registry.execute(name, **arguments)` performs at the call site: `arguments`
must be a mapping (else `TypeError: argument after ** must be a mapping`
is raised), and none of its keys may collide with `execute`'s own bound
parameters `self` and `name` (else `TypeError: got multiple values for
argument ...` is raised). Non-string-keyed mappings (which raise
`TypeError: keywords must be strings`) do not arise in this model, whose
mappings are string-keyed. -/
def starStarTypeError : PyExc :=
  { kind := "TypeError", msg := "argument after ** must be a mapping", isException := true }

def multipleValuesTypeError : PyExc :=
  { kind := "TypeError", msg := "execute() got multiple values for argument",
    isException := true }

def unpackKwargs (v : Py) : Except PyExc (List (String × Py)) :=
  match v with
  | Py.dict kvs =>
    if kvs.any (fun kv => kv.1 = "self" || kv.1 = "name") then
      Except.error multipleValuesTypeError
    else Except.ok kvs
  | _ => Except.error starStarTypeError

/-- The line `return registry.execute(name, **arguments)`
(src/tools.py line 1036), including the `**` unpacking it performs before
`execute` runs. -/
def dispatchCall (reg : ToolRegistry) (name : String) (arguments : Py) : Except PyExc String :=
  match unpackKwargs arguments with
  | Except.ok kwargs => ToolRegistry.execute reg name kwargs
  | Except.error e => Except.error e

/-- A tool-call request from an LLM response, with the defaults of
`tool_call.get("name", "")` and `tool_call.get("arguments", {})` applied
(src/tools.py lines 1026-1027). The claims quantify over string names only,
so `name` is a string here. -/
structure ToolCall where
  name : String := ""
  arguments : Py := Py.dict []

/-- Model of `execute_tool_call` (src/tools.py lines 1016-1036): string arguments are
deserialized (a `json.JSONDecodeError` becomes the invalid-JSON error
string), then the call is delegated to `registry.execute(name, **arguments)`. -/
def execute_tool_call (reg : ToolRegistry) (tc : ToolCall) : Except PyExc String :=
  match tc.arguments with
  | Py.str s =>
    match json_loads s with
    | Except.error _ =>
      Except.ok ("Error: Invalid JSON arguments for tool '" ++ tc.name ++ "'")
    | Except.ok v => dispatchCall reg tc.name v
  | _ => dispatchCall reg tc.name tc.arguments

/-- The value that `execute_tool_call` hands to
`registry.execute(name, **arguments)`: the deserialization of a string
argument, or the argument itself; `Option.none` when a string argument fails
to deserialize (in which case the registry is never consulted). Statement
helper for the dispatch claims. -/
def argsValue (a : Py) : Option Py :=
  match a with
  | Py.str s => (json_loads s).toOption
  | v => Option.some v

/-! ## Lemmas about the retry loop -/

theorem syncLoop_exhaust (p : RetryPolicy) (f : Nat → Except PyExc α) (rs : Nat → ℚ) :
    ∀ (fuel a : Nat) (lastE : Option PyExc), 1 ≤ fuel →
      (a : Int) + (fuel : Int) = p.max_attempts + 1 →
      (∀ j, a ≤ j → (j : Int) ≤ p.max_attempts →
        ∃ e, f j = Except.error e ∧ p.exceptions e = true) →
      (syncLoop p f rs fuel a lastE).calls = fuel
      ∧ ∃ e, f (a + fuel - 1) = Except.error e
          ∧ (syncLoop p f rs fuel a lastE).result = Except.error e := by
  intro fuel
  induction fuel with
  | zero => intro a lastE h1 _ _; exact absurd h1 (by omega)
  | succ m ih =>
    intro a lastE _ hinv hf
    obtain ⟨e, hfe, hq⟩ := hf a (le_refl a) (by push_cast at hinv ⊢; omega)
    by_cases hlast : (a : Int) = p.max_attempts
    · have hm : m = 0 := by push_cast at hinv; omega
      subst hm
      refine ⟨by simp [syncLoop, hfe, hq, hlast], e, ?_, by simp [syncLoop, hfe, hq, hlast]⟩
      simpa using hfe
    · have hm : 1 ≤ m := by push_cast at hinv; omega
      have hinv2 : ((a + 1 : Nat) : Int) + m = p.max_attempts + 1 := by
        push_cast at hinv ⊢; omega
      have hf2 : ∀ j, a + 1 ≤ j → (j : Int) ≤ p.max_attempts →
          ∃ e, f j = Except.error e ∧ p.exceptions e = true :=
        fun j hj hj2 => hf j (by omega) hj2
      obtain ⟨hc, e2, he2, hr2⟩ := ih (a + 1) (Option.some e) hm hinv2 hf2
      have hidx : a + (m + 1) - 1 = a + 1 + m - 1 := by omega
      refine ⟨?_, e2, by rw [hidx]; exact he2, ?_⟩
      · simp [syncLoop, hfe, hq, hlast, hc]
      · simp [syncLoop, hfe, hq, hlast, hr2]

theorem syncLoop_delays_get (p : RetryPolicy) (f : Nat → Except PyExc α) (rs : Nat → ℚ)
    (k : Nat) :
    ∀ (fuel a : Nat) (lastE : Option PyExc), 1 ≤ a → a ≤ k → (k : Int) < p.max_attempts →
      (a : Int) + (fuel : Int) = p.max_attempts + 1 →
      (∀ j, a ≤ j → j ≤ k → ∃ e, f j = Except.error e ∧ p.exceptions e = true) →
      ((syncLoop p f rs fuel a lastE).delays)[k - a]?
        = some (if p.jitter
                then min (p.base_delay * p.exponential_base ^ (k - 1)) p.max_delay * (1/2 + rs k)
                else min (p.base_delay * p.exponential_base ^ (k - 1)) p.max_delay) := by
  intro fuel
  induction fuel with
  | zero =>
    intro a lastE ha hak hkN hinv _
    exfalso
    push_cast at hinv
    omega
  | succ m ih =>
    intro a lastE ha hak hkN hinv hf
    obtain ⟨e, hfe, hq⟩ := hf a (le_refl a) hak
    have hlast : ¬ ((a : Int) = p.max_attempts) := by
      have : (a : Int) ≤ (k : Int) := by exact_mod_cast hak
      omega
    by_cases hae : a = k
    · subst hae
      simp [syncLoop, hfe, hq, hlast]
    · have ha2 : a + 1 ≤ k := by omega
      have hinv2 : ((a + 1 : Nat) : Int) + m = p.max_attempts + 1 := by
        push_cast at hinv ⊢; omega
      have hf2 : ∀ j, a + 1 ≤ j → j ≤ k →
          ∃ e, f j = Except.error e ∧ p.exceptions e = true :=
        fun j hj hj2 => hf j (by omega) hj2
      have hrec := ih (a + 1) (Option.some e) (by omega) ha2 hkN hinv2 hf2
      have hidx : k - a = (k - (a + 1)) + 1 := by omega
      simp only [syncLoop, hfe, hq, hlast, if_false, if_true, hidx]
      simpa using hrec

/-! ## Claims about the retry wrapper -/

/-- C6: retry exhaustion re-raises the final failure. For every policy with
`max_attempts = N >= 1` and every target failing with a qualifying failure on
every attempt, the target is invoked exactly N times and the propagated
failure is exactly the failure raised on the N-th invocation (no wrapper
failure is invented). -/
theorem retry_exhaustion_reraises_last (p : RetryPolicy) (f : Nat → Except PyExc α)
    (rs : Nat → ℚ) (hN : 1 ≤ p.max_attempts)
    (hf : ∀ j : Nat, 1 ≤ j → (j : Int) ≤ p.max_attempts →
        ∃ e, f j = Except.error e ∧ p.exceptions e = true) :
    (sync_wrapper p f rs).calls = p.max_attempts.toNat
    ∧ ∃ e, f p.max_attempts.toNat = Except.error e
        ∧ (sync_wrapper p f rs).result = Except.error e := by
  have hfuel : 1 ≤ p.max_attempts.toNat := by omega
  have hinv : ((1 : Nat) : Int) + (p.max_attempts.toNat : Int) = p.max_attempts + 1 := by
    omega
  have h := syncLoop_exhaust p f rs p.max_attempts.toNat 1 Option.none hfuel hinv hf
  have hidx : 1 + p.max_attempts.toNat - 1 = p.max_attempts.toNat := by omega
  rw [hidx] at h
  exact h

/-- Witness for C6: an always-failing target under
`max_attempts = 3, jitter = False` is called exactly 3 times and the
propagated failure is the one from the third call. -/
def persistentError : PyExc := { kind := "ValueError", msg := "Persistent error", isException := true }

def pW6 : RetryPolicy :=
  { max_attempts := 3, base_delay := 1, max_delay := 60, exponential_base := 2,
    jitter := false, exceptions := fun _ => true }

theorem retry_exhaustion_witness :
    (sync_wrapper pW6 (fun _ => (Except.error persistentError : Except PyExc String))
        (fun _ => 0)).calls = 3
    ∧ (sync_wrapper pW6 (fun _ => (Except.error persistentError : Except PyExc String))
        (fun _ => 0)).result = Except.error persistentError := by
  have h := retry_exhaustion_reraises_last pW6
    (fun _ => (Except.error persistentError : Except PyExc String)) (fun _ => 0)
    (by decide) (fun j _ _ => ⟨persistentError, rfl, rfl⟩)
  obtain ⟨hc, e, he, hr⟩ := h
  have he2 : e = persistentError := by
    have : (Except.error persistentError : Except PyExc String) = Except.error e := he
    cases this
    rfl
  constructor
  · exact hc
  · rw [he2] at hr
    exact hr

/-- C7: non-qualifying failures bypass retry. For every policy (within its
documented domain `max_attempts >= 1`) and target whose first invocation
raises a failure outside the configured `exceptions` set, the target is
invoked exactly once, the same failure propagates immediately, and no
backoff delay is slept. -/
theorem retry_nonqualifying_immediate (p : RetryPolicy) (f : Nat → Except PyExc α)
    (rs : Nat → ℚ) (e : PyExc) (hN : 1 ≤ p.max_attempts)
    (hf : f 1 = Except.error e) (hq : p.exceptions e = false) :
    sync_wrapper p f rs = { result := Except.error e, calls := 1, delays := [] } := by
  unfold sync_wrapper
  obtain ⟨m, hm⟩ : ∃ m, p.max_attempts.toNat = m + 1 := ⟨p.max_attempts.toNat - 1, by omega⟩
  rw [hm]
  simp [syncLoop, hf, hq]

/-- Witness for C7: a policy retrying only on kind "ValueError" propagates a
"TypeError" failure after exactly one call, with no delay. -/
def notRetriedError : PyExc := { kind := "TypeError", msg := "Not retried", isException := true }

def pW7 : RetryPolicy :=
  { max_attempts := 3, base_delay := 1, max_delay := 60, exponential_base := 2,
    jitter := true, exceptions := fun e => e.kind == "ValueError" }

theorem retry_nonqualifying_witness :
    sync_wrapper pW7 (fun _ => (Except.error notRetriedError : Except PyExc String)) (fun _ => 0)
      = { result := Except.error notRetriedError, calls := 1, delays := [] } :=
  retry_nonqualifying_immediate pW7 _ _ notRetriedError (by decide) rfl rfl

/-- C8: the backoff delay formula. If attempts 1..k (k < max_attempts) all
end in qualifying failures, the delay slept after attempt k is
`min(base_delay * exponential_base^(k-1), max_delay)`, multiplied when jitter
is on by the random factor `0.5 + random()` in [0.5, 1.5); and for draws in
[0, 1) and nonnegative policy parameters the jittered delay never exceeds
`max_delay * 1.5`. -/
theorem retry_backoff_delay_formula (p : RetryPolicy) (f : Nat → Except PyExc α)
    (rs : Nat → ℚ) (k : Nat) (hk : 1 ≤ k) (hkN : (k : Int) < p.max_attempts)
    (hf : ∀ j, 1 ≤ j → j ≤ k → ∃ e, f j = Except.error e ∧ p.exceptions e = true) :
    ((sync_wrapper p f rs).delays)[k - 1]?
      = some (if p.jitter
              then min (p.base_delay * p.exponential_base ^ (k - 1)) p.max_delay * (1/2 + rs k)
              else min (p.base_delay * p.exponential_base ^ (k - 1)) p.max_delay)
    ∧ (0 ≤ rs k → rs k < 1 → 0 ≤ p.base_delay → 0 ≤ p.exponential_base → 0 ≤ p.max_delay →
        min (p.base_delay * p.exponential_base ^ (k - 1)) p.max_delay * (1/2 + rs k)
          ≤ p.max_delay * (3/2)) := by
  constructor
  · have hinv : ((1 : Nat) : Int) + (p.max_attempts.toNat : Int) = p.max_attempts + 1 := by
      omega
    have h := syncLoop_delays_get p f rs k p.max_attempts.toNat 1 Option.none
      (le_refl 1) hk hkN hinv hf
    exact h
  · intro h0 h1 hb hg hm
    have hcap : min (p.base_delay * p.exponential_base ^ (k - 1)) p.max_delay ≤ p.max_delay :=
      min_le_right _ _
    have hfac : (1 : ℚ)/2 + rs k ≤ 3/2 := by linarith
    have hfacpos : (0 : ℚ) ≤ 1/2 + rs k := by linarith
    exact mul_le_mul hcap hfac hfacpos hm

/-- Witness for C8: with `base_delay = 1, exponential_base = 2,
max_delay = 60, jitter = True` and a draw of 1/4, the delay slept after the
first failing attempt is `min(1 * 2^0, 60) * (0.5 + 0.25) = 3/4`, below
`60 * 1.5`. -/
def pW8 : RetryPolicy :=
  { max_attempts := 3, base_delay := 1, max_delay := 60, exponential_base := 2,
    jitter := true, exceptions := fun _ => true }

theorem retry_backoff_witness :
    ((sync_wrapper pW8 (fun _ => (Except.error persistentError : Except PyExc String))
        (fun _ => 1/4)).delays)[0]? = some ((3 : ℚ)/4)
    ∧ ((3 : ℚ)/4) ≤ pW8.max_delay * (3/2) := by
  have h := retry_backoff_delay_formula pW8
    (fun _ => (Except.error persistentError : Except PyExc String)) (fun _ => 1/4) 1
    (le_refl 1) (by decide) (fun j _ _ => ⟨persistentError, rfl, rfl⟩)
  constructor
  · rw [h.1]
    norm_num [pW8, min_def]
  · have h2 := h.2 (by norm_num) (by norm_num) (by norm_num [pW8]) (by norm_num [pW8])
      (by norm_num [pW8])
    calc ((3 : ℚ)/4)
        = min (pW8.base_delay * pW8.exponential_base ^ (1 - 1)) pW8.max_delay * (1/2 + 1/4) := by
          norm_num [pW8, min_def]
      _ ≤ pW8.max_delay * (3/2) := h2

/-- C10: implicit edge case. For every policy with `max_attempts <= 0`
(outside the documented domain), the wrapped blocking callable never invokes
the target and returns `None`: the attempt loop body never executes and no
last failure exists to re-raise. -/
theorem retry_nonpositive_attempts_returns_none (p : RetryPolicy)
    (f : Nat → Except PyExc α) (rs : Nat → ℚ) (h : p.max_attempts ≤ 0) :
    sync_wrapper p f rs = { result := Except.ok Option.none, calls := 0, delays := [] } := by
  unfold sync_wrapper
  have h0 : p.max_attempts.toNat = 0 := by omega
  rw [h0]
  rfl

/-- Witness for C10: with `max_attempts = 0` the wrapper returns `None`
without ever calling the (always-succeeding) target. -/
def pW10 : RetryPolicy :=
  { max_attempts := 0, base_delay := 1, max_delay := 60, exponential_base := 2,
    jitter := true, exceptions := fun _ => true }

theorem retry_zero_attempts_witness :
    sync_wrapper pW10 (fun _ => (Except.ok "never called" : Except PyExc String)) (fun _ => 0)
      = { result := Except.ok Option.none, calls := 0, delays := [] } :=
  retry_nonpositive_attempts_returns_none pW10 _ _ (by decide)

/-! ## Claims about the registry and the dispatch entry point -/

/-- C2 counterexample: at the concrete name "nonexistent" on the empty
registry, `execute` returns "Error: Tool 'nonexistent' not found." — a string
of a different exact form than the claimed "Tool 'nonexistent' not found."
(the "Error: " prefix is part of the returned string). -/
theorem tool_not_found_exact_form_fails :
    ToolRegistry.execute emptyRegistry "nonexistent" []
      = Except.ok "Error: Tool 'nonexistent' not found."
    ∧ ToolRegistry.execute emptyRegistry "nonexistent" []
      ≠ Except.ok "Tool 'nonexistent' not found." := by
  refine ⟨rfl, ?_⟩
  intro h
  have h2 := Except.ok.inj (rfl.symm.trans h :
      (Except.ok "Error: Tool 'nonexistent' not found." : Except PyExc String)
        = Except.ok "Tool 'nonexistent' not found.")
  exact absurd h2 (by decide)

/-- C2 (amended): for every name not present in the registry, `execute`
returns (without raising) the error string of the exact form
"Error: Tool '<name>' not found." — in particular a string containing
"not found" and the requested name. -/
theorem execute_not_found_message (reg : ToolRegistry) (name : String)
    (kwargs : List (String × Py)) (h : reg.get name = Option.none) :
    ToolRegistry.execute reg name kwargs
      = Except.ok ("Error: Tool '" ++ name ++ "' not found.")
    ∧ (∃ l r, "Error: Tool '" ++ name ++ "' not found." = l ++ "not found" ++ r)
    ∧ (∃ l r, "Error: Tool '" ++ name ++ "' not found." = l ++ name ++ r) := by
  refine ⟨?_, ⟨"Error: Tool '" ++ name ++ "' ", ".", ?_⟩,
    ⟨"Error: Tool '", "' not found.", ?_⟩⟩
  · simp [ToolRegistry.execute, h]
  · simp [String.append_assoc]
  · simp [String.append_assoc]

/-- Witness for C2 (amended), at the name "nonexistent" on the empty
registry. -/
theorem execute_not_found_message_witness :
    ToolRegistry.execute emptyRegistry "nonexistent" []
      = Except.ok ("Error: Tool '" ++ "nonexistent" ++ "' not found.")
    ∧ (∃ l r, "Error: Tool '" ++ "nonexistent" ++ "' not found." = l ++ "not found" ++ r)
    ∧ (∃ l r, "Error: Tool '" ++ "nonexistent" ++ "' not found." = l ++ "nonexistent" ++ r) :=
  execute_not_found_message emptyRegistry "nonexistent" [] rfl

/-- C3 counterexample: a registered tool whose implementation raises
`SystemExit` — a failure that does not derive from `Exception`. The
`except Exception` clause in `execute` does not match it, so the failure
propagates out of `execute` instead of being converted to an error string,
refuting the claim for failures of arbitrary kind. -/
def sysExitExc : PyExc := { kind := "SystemExit", msg := "0", isException := false }

def boomRegistry : ToolRegistry :=
  ToolRegistry.register emptyRegistry "boom" "raises SystemExit" []
    (fun _ => Except.error sysExitExc)

theorem execute_propagates_base_exception :
    ToolRegistry.execute boomRegistry "boom" [] = Except.error sysExitExc := rfl

/-- C3 (amended): for every registered tool whose implementation raises an
`Exception`-derived failure, `execute` returns the string
"Error executing '<name>': <failure message>" (containing the tool name and
the failure's message) instead of propagating the failure; and the registry
value is unchanged by `execute`, so any other registered tool still executes
as before on the same registry. -/
theorem execute_catches_exception_failures (reg : ToolRegistry) (name : String)
    (t : Tool) (kwargs : List (String × Py)) (e : PyExc)
    (hget : reg.get name = Option.some t)
    (hrun : t.function kwargs = Except.error e)
    (hexc : e.isException = true) :
    ToolRegistry.execute reg name kwargs
      = Except.ok ("Error executing '" ++ name ++ "': " ++ e.msg)
    ∧ (∃ l r, "Error executing '" ++ name ++ "': " ++ e.msg = l ++ name ++ r)
    ∧ (∃ l r, "Error executing '" ++ name ++ "': " ++ e.msg = l ++ e.msg ++ r)
    ∧ (∀ name2 t2 kwargs2 r2, reg.get name2 = Option.some t2 →
        t2.function kwargs2 = Except.ok r2 →
        ToolRegistry.execute reg name2 kwargs2 = Except.ok r2) := by
  refine ⟨?_, ⟨"Error executing '", "': " ++ e.msg, ?_⟩,
    ⟨"Error executing '" ++ name ++ "': ", "", ?_⟩, ?_⟩
  · simp [ToolRegistry.execute, Tool.execute, hget, hrun, hexc]
  · simp [String.append_assoc]
  · simp [String.append_assoc]
  · intro name2 t2 kwargs2 r2 hg2 hr2
    simp [ToolRegistry.execute, Tool.execute, hg2, hr2]

/-- Witness for C3 (amended): a tool raising `ValueError("boom")` yields
"Error executing 'fail': boom" and an adjacent succeeding tool still works. -/
def valueErrorBoom : PyExc := { kind := "ValueError", msg := "boom", isException := true }

def failRegistry : ToolRegistry :=
  (ToolRegistry.register emptyRegistry "ok_tool" "succeeds" []
      (fun _ => Except.ok "fine")).register "fail" "raises ValueError" []
    (fun _ => Except.error valueErrorBoom)

theorem execute_catches_exception_failures_witness :
    ToolRegistry.execute failRegistry "fail" []
      = Except.ok ("Error executing '" ++ "fail" ++ "': " ++ valueErrorBoom.msg)
    ∧ ToolRegistry.execute failRegistry "ok_tool" [] = Except.ok "fine" := by
  have h := execute_catches_exception_failures failRegistry "fail"
    { name := "fail", description := "raises ValueError",
      function := fun _ => Except.error valueErrorBoom, parameters := [] }
    [] valueErrorBoom rfl rfl rfl
  exact ⟨h.1, h.2.2.2 "ok_tool"
    { name := "ok_tool", description := "succeeds",
      function := fun _ => Except.ok "fine", parameters := [] } [] "fine" rfl rfl⟩

/-- C4: a string arguments field that fails to deserialize as JSON makes
`execute_tool_call` return exactly
"Error: Invalid JSON arguments for tool '<name>'", for every registry — so
the registry is never consulted and no tool code runs. -/
theorem invalid_json_arguments_error (name s : String)
    (h : json_loads s = Except.error ()) :
    ∀ reg : ToolRegistry, execute_tool_call reg { name := name, arguments := Py.str s }
      = Except.ok ("Error: Invalid JSON arguments for tool '" ++ name ++ "'") := by
  intro reg
  simp [execute_tool_call, h]

/-- Witness for C4: the malformed payload from the spec's example. -/
theorem invalid_json_arguments_error_witness :
    execute_tool_call emptyRegistry { name := "ls", arguments := Py.str "\x7bnot valid json" }
      = Except.ok ("Error: Invalid JSON arguments for tool '" ++ "ls" ++ "'") :=
  invalid_json_arguments_error "ls" "\x7bnot valid json" rfl emptyRegistry

/-- C5: registration is last-write-wins. Registering under an existing name
raises no error (registration is total), `get` then returns the most recently
registered descriptor, and `execute` invokes the most recently registered
implementation. -/
theorem register_last_write_wins (reg : ToolRegistry) (n d1 d2 : String)
    (ps1 ps2 : List ToolParameter)
    (f1 f2 : List (String × Py) → Except PyExc String) :
    ((reg.register n d1 ps1 f1).register n d2 ps2 f2).get n
      = Option.some { name := n, description := d2, function := f2, parameters := ps2 }
    ∧ (∀ kwargs r, f2 kwargs = Except.ok r →
        ((reg.register n d1 ps1 f1).register n d2 ps2 f2).execute n kwargs
          = Except.ok r) := by
  constructor
  · simp [ToolRegistry.get, ToolRegistry.register, dictGet_dictSet]
  · intro kwargs r h
    simp [ToolRegistry.execute, ToolRegistry.get, ToolRegistry.register, Tool.execute,
      dictGet_dictSet, h]

/-- Witness for C5: registering "x" twice, `get` returns the second
descriptor and `execute` runs the second implementation. -/
def secondXTool : Tool :=
  { name := "x", description := "second",
    function := fun _ => Except.ok "second result", parameters := [] }

theorem register_last_write_wins_witness :
    ((emptyRegistry.register "x" "first" [] (fun _ => Except.ok "first result")).register
        "x" "second" [] (fun _ => Except.ok "second result")).get "x"
      = Option.some secondXTool
    ∧ ((emptyRegistry.register "x" "first" [] (fun _ => Except.ok "first result")).register
        "x" "second" [] (fun _ => Except.ok "second result")).execute "x" []
      = Except.ok "second result" := by
  have h := register_last_write_wins emptyRegistry "x" "first" "second" [] []
    (fun _ => Except.ok "first result") (fun _ => Except.ok "second result")
  exact ⟨h.1, h.2 [] "second result" rfl⟩

/-! ## Claim about schema export -/

theorem foldl_schemaStep_fst (ps : List ToolParameter) (d : List (String × ParamSchema))
    (r : List String) :
    (ps.foldl schemaStep (d, r)).1
      = ps.foldl
          (fun d p => dictSet d p.name { type := p.type, description := p.description }) d := by
  induction ps generalizing d r with
  | nil => rfl
  | cons p ps ih => simp [schemaStep, ih]

theorem foldl_schemaStep_snd (ps : List ToolParameter) (d : List (String × ParamSchema))
    (r : List String) :
    (ps.foldl schemaStep (d, r)).2
      = r ++ (ps.filter (fun p => p.required)).map (fun p => p.name) := by
  induction ps generalizing d r with
  | nil => simp
  | cons p ps ih =>
    cases hp : p.required <;>
      simp [schemaStep, hp, List.filter_cons, ih]

theorem dictSet_of_not_mem {β : Type} (d : List (String × β)) (k : String) (v : β)
    (h : ∀ x ∈ d, x.1 ≠ k) : dictSet d k v = d ++ [(k, v)] := by
  induction d with
  | nil => rfl
  | cons hd tl ih =>
    have hhd : hd.1 ≠ k := h hd (List.mem_cons_self hd tl)
    obtain ⟨k', v'⟩ := hd
    simp only [ne_eq] at hhd
    simp [dictSet, hhd, ih (fun x hx => h x (List.mem_cons_of_mem _ hx))]

theorem props_foldl_of_nodup (ps : List ToolParameter) (d : List (String × ParamSchema))
    (hd : ∀ p ∈ ps, ∀ x ∈ d, x.1 ≠ p.name)
    (hnd : (ps.map (fun p => p.name)).Nodup) :
    ps.foldl (fun d p => dictSet d p.name { type := p.type, description := p.description }) d
      = d ++ ps.map
          (fun p => (p.name, ({ type := p.type, description := p.description } : ParamSchema))) := by
  induction ps generalizing d with
  | nil => simp
  | cons p ps ih =>
    simp only [List.map_cons, List.nodup_cons, List.mem_map] at hnd
    obtain ⟨hnotin, hnd2⟩ := hnd
    have hcond : ∀ q ∈ ps,
        ∀ x ∈ d ++ [(p.name, ({ type := p.type, description := p.description } : ParamSchema))],
          x.1 ≠ q.name := by
      intro q hq x hx
      rcases List.mem_append.mp hx with hx1 | hx2
      · exact hd q (List.mem_cons_of_mem p hq) x hx1
      · have hxeq : x = (p.name, ({ type := p.type, description := p.description } : ParamSchema)) := by
          simpa using hx2
        subst hxeq
        intro hcon
        exact hnotin ⟨q, hq, hcon.symm⟩
    have hih := ih
      (d ++ [(p.name, ({ type := p.type, description := p.description } : ParamSchema))])
      hcond hnd2
    simp only [List.foldl_cons]
    rw [dictSet_of_not_mem d p.name _ (fun x hx => hd p (List.mem_cons_self p ps) x hx), hih]
    simp

/-- C9: schema export. For every tool descriptor the exported schema is
`{type: "object", properties, required}` where `properties` is the Python
dict comprehension `param.name : {type, description}` over the parameters (one
assignment per parameter, later duplicates overwriting), `required` lists the
names of exactly the parameters with `required == true` in parameter order;
when parameter names are distinct, `properties` has exactly one entry per
parameter in parameter order; and the parameters' default values do not
affect the export. -/
theorem schema_export_shape (t : Tool) :
    t.to_json_schema
      = { type := "object",
          properties :=
            (t.parameters.map (fun p =>
              (p.name, ({ type := p.type, description := p.description } : ParamSchema)))).foldl
              (fun d kv => dictSet d kv.1 kv.2) [],
          required := (t.parameters.filter (fun p => p.required)).map (fun p => p.name) }
    ∧ ((t.parameters.map (fun p => p.name)).Nodup →
        (t.to_json_schema).properties
          = t.parameters.map (fun p =>
              (p.name, ({ type := p.type, description := p.description } : ParamSchema))))
    ∧ (∀ dv : Option Py,
        Tool.to_json_schema
          { t with parameters := t.parameters.map (fun p => { p with default := dv }) }
          = t.to_json_schema) := by
  refine ⟨?_, ?_, ?_⟩
  · simp only [Tool.to_json_schema, List.foldl_map]
    rw [foldl_schemaStep_fst, foldl_schemaStep_snd]
    simp
  · intro hnd
    simp only [Tool.to_json_schema]
    rw [foldl_schemaStep_fst]
    rw [props_foldl_of_nodup t.parameters [] (by intro p _ x hx; simp at hx) hnd]
    simp
  · intro dv
    simp only [Tool.to_json_schema, List.foldl_map]
    rfl

/-- Witness for C9: the example descriptor with parameters
`[path: string, required=false; recursive: boolean, required=true]` exports
`required == ["recursive"]` with both names in `properties`, and setting a
default on the parameters leaves the export unchanged. -/
def exampleTool : Tool :=
  { name := "demo", description := "example tool",
    function := fun _ => Except.ok "ok",
    parameters :=
      [{ name := "path", type := "string", description := "The path", required := false },
       { name := "recursive", type := "boolean", description := "Recurse", required := true }] }

theorem schema_export_shape_witness :
    (Tool.to_json_schema exampleTool).required = ["recursive"]
    ∧ (Tool.to_json_schema exampleTool).properties
      = [("path", { type := "string", description := "The path" }),
         ("recursive", { type := "boolean", description := "Recurse" })]
    ∧ Tool.to_json_schema
        { exampleTool with
          parameters := exampleTool.parameters.map (fun p => { p with default := some Py.none }) }
      = Tool.to_json_schema exampleTool := by
  have h := schema_export_shape exampleTool
  refine ⟨?_, ?_, h.2.2 (some Py.none)⟩
  · rw [h.1]
    rfl
  · rw [h.2.1 (by decide)]
    rfl

/-! ## Claim about total containment of the dispatch entry point -/

theorem execute_never_raises_of_exc_only (reg : ToolRegistry) (name : String)
    (kwargs : List (String × Py))
    (hreg : ∀ n t, reg.get n = Option.some t →
        ∀ kw e, t.function kw = Except.error e → e.isException = true) :
    ∃ out, ToolRegistry.execute reg name kwargs = Except.ok out := by
  cases hg : reg.get name with
  | none =>
    exact ⟨"Error: Tool '" ++ name ++ "' not found.", by simp [ToolRegistry.execute, hg]⟩
  | some t =>
    cases hr : t.function kwargs with
    | ok s => exact ⟨s, by simp [ToolRegistry.execute, Tool.execute, hg, hr]⟩
    | error e =>
      have he := hreg name t hg kwargs e hr
      exact ⟨"Error executing '" ++ name ++ "': " ++ e.msg,
        by simp [ToolRegistry.execute, Tool.execute, hg, hr, he]⟩

/-- C1 counterexample: the request with name "ls" and string arguments
"[1, 2]". The string is valid JSON but deserializes to a list, not a
mapping, so the subsequent `registry.execute(name, **arguments)` raises
`TypeError` out of `execute_tool_call` — the entry point does not return a
string on this input, refuting the unconditional never-raises claim. -/
theorem execute_tool_call_raises_on_json_array :
    execute_tool_call emptyRegistry { name := "ls", arguments := Py.str "[1, 2]" }
      = Except.error starStarTypeError := rfl

/-- C1 (amended): `execute_tool_call` returns a string and never raises for
every request whose arguments are a string-keyed mapping, or a string that
either fails to deserialize or deserializes to such a mapping — provided the
mapping's keys avoid the dispatcher's own parameter names ("name", "self")
and every registered implementation raises only `Exception`-derived
failures. -/
theorem execute_tool_call_total_on_safe_requests (reg : ToolRegistry) (tc : ToolCall)
    (hreg : ∀ n t, reg.get n = Option.some t →
        ∀ kw e, t.function kw = Except.error e → e.isException = true)
    (hargs : ∀ v, argsValue tc.arguments = Option.some v →
        ∃ kw, unpackKwargs v = Except.ok kw) :
    ∃ out, execute_tool_call reg tc = Except.ok out := by
  obtain ⟨name, arguments⟩ := tc
  cases arguments with
  | str s =>
    cases hj : json_loads s with
    | error u =>
      exact ⟨"Error: Invalid JSON arguments for tool '" ++ name ++ "'",
        by simp [execute_tool_call, hj]⟩
    | ok v =>
      have hv : argsValue (Py.str s) = Option.some v := by
        simp [argsValue, hj, Except.toOption]
      obtain ⟨kw, hkw⟩ := hargs v hv
      obtain ⟨out, hout⟩ := execute_never_raises_of_exc_only reg name kw hreg
      exact ⟨out, by simp [execute_tool_call, hj, dispatchCall, hkw, hout]⟩
  | dict kvs =>
    obtain ⟨kw, hkw⟩ := hargs (Py.dict kvs) rfl
    obtain ⟨out, hout⟩ := execute_never_raises_of_exc_only reg name kw hreg
    exact ⟨out, by simp [execute_tool_call, dispatchCall, hkw, hout]⟩
  | num q =>
    obtain ⟨kw, hkw⟩ := hargs (Py.num q) rfl
    exact absurd hkw (by simp [unpackKwargs])
  | bool b =>
    obtain ⟨kw, hkw⟩ := hargs (Py.bool b) rfl
    exact absurd hkw (by simp [unpackKwargs])
  | none =>
    obtain ⟨kw, hkw⟩ := hargs Py.none rfl
    exact absurd hkw (by simp [unpackKwargs])
  | list vs =>
    obtain ⟨kw, hkw⟩ := hargs (Py.list vs) rfl
    exact absurd hkw (by simp [unpackKwargs])

/-- Witness for C1 (amended): a request with an empty mapping on the empty
registry is answered with a string (the not-found error text). -/
theorem execute_tool_call_total_witness :
    ∃ out, execute_tool_call emptyRegistry { name := "ls", arguments := Py.dict [] }
      = Except.ok out := by
  apply execute_tool_call_total_on_safe_requests
  · intro n t h kw e hr
    exact absurd h (by simp [ToolRegistry.get, dictGet])
  · intro v hv
    have hv2 : Option.some (Py.dict []) = Option.some v := hv
    cases hv2
    exact ⟨[], rfl⟩
